import Mathlib

/-!
Verification of the document-to-vector-store synchronization protocol of the
AgenticAssistant repository (backend of `example_six`), together with its
context-quality evaluator and the calculator MCP tool.

The Python sources are embedded shallowly:

* the relational `document_metadata` table (src/example_six/backend/models.py)
  becomes a `List DocumentMetadata`;
* a `Document` produced by the external `SimpleDirectoryReader` is represented
  by its `doc_id` together with the metadata keys the repository code reads
  (`file_name`, `file_type`, `file_path`, `file_size`, `creation_date`,
  `modified_at`, `accessed_at`); an absent key is `none`, mirroring
  Python's `dict.get(key, fallback)`;
* timestamps are abstract naturals;
* the external vector index is a black box keyed by `doc_id`; it is modelled
  by the list of doc ids it holds, and the success or failure of each external
  call (index insert, `update_ref_doc`, `delete_ref_doc`, database commit) is
  injected as an explicit boolean parameter, since those calls are performed
  by external services that may fail independently;
* each FastAPI endpoint handler becomes a function from the synchronization
  state (vector index ids, metadata rows, on-disk files, adapter call count)
  to an outcome and a new state.
-/

namespace AgenticAssistant

/-- Row of the `document_metadata` table (class `DocumentMetadata` in
models.py): filename, the LlamaIndex internal doc id, descriptive metadata
and three timestamps. -/
structure DocumentMetadata where
  filename : String
  doc_id : String
  mime_type : String
  file_path : String
  size : Nat
  creation_date : Option Nat
  modified_at : Option Nat
  accessed_at : Option Nat
  deriving Repr, DecidableEq

/-- Document as loaded by the external `SimpleDirectoryReader`: its assigned
`doc_id` plus the metadata keys the repository reads via `doc.metadata.get`;
`none` models an absent key. -/
structure Document where
  doc_id : String
  file_name : Option String
  file_type : Option String
  file_path : Option String
  file_size : Option Nat
  creation_date : Option Nat
  modified_at : Option Nat
  accessed_at : Option Nat
  deriving Repr, DecidableEq

/-- Embeds `check_document_exists_with_doc_id` (models.py): true when some
row has the given `doc_id`. -/
def check_document_exists_with_doc_id (db : List DocumentMetadata) (doc_id : String) : Bool :=
  db.any (fun d => d.doc_id == doc_id)

/-- Embeds `check_document_exists_with_filename` (models.py): true when some
row has the given `filename`. -/
def check_document_exists_with_filename (db : List DocumentMetadata) (filename : String) : Bool :=
  db.any (fun d => d.filename == filename)

/-- Embeds `get_doc_id_from_filename` (models.py): `doc_id` of the first row
with the given filename, `none` when there is no such row. -/
def get_doc_id_from_filename (db : List DocumentMetadata) (filename : String) : Option String :=
  (db.find? (fun d => d.filename == filename)).map (fun d => d.doc_id)

/-- Row built by the insert branch of `create_document_session` (models.py):
each field is `doc.metadata.get(key, fallback)` with the fallbacks of the
source (`"unknown"`, `0`, `None`). -/
def insertRow (doc : Document) : DocumentMetadata :=
  { filename := doc.file_name.getD "unknown"
    doc_id := doc.doc_id
    mime_type := doc.file_type.getD "unknown"
    file_path := doc.file_path.getD "unknown"
    size := doc.file_size.getD 0
    creation_date := doc.creation_date
    modified_at := doc.modified_at
    accessed_at := doc.accessed_at }

/-- Update branch of `create_document_session` (models.py): the first row
whose `doc_id` matches the document's gets `size`, `modified_at` and
`accessed_at` overwritten by `doc.metadata.get(key, current value)`; all
other fields and rows are untouched. -/
def updateDocFirst (doc : Document) : List DocumentMetadata → List DocumentMetadata
  | [] => []
  | r :: rest =>
    if r.doc_id == doc.doc_id then
      { r with
        size := doc.file_size.getD r.size
        modified_at := match doc.modified_at with
          | some t => some t
          | none => r.modified_at
        accessed_at := match doc.accessed_at with
          | some t => some t
          | none => r.accessed_at } :: rest
    else r :: updateDocFirst doc rest

/-- Loop body of `create_document_session` (models.py): for each document,
insert a fresh row when no row carries its `doc_id`, otherwise update the
existing row in place. -/
def create_document_session_go : List Document → List DocumentMetadata → List DocumentMetadata
  | [], db => db
  | doc :: rest, db =>
    if check_document_exists_with_doc_id db doc.doc_id then
      create_document_session_go rest (updateDocFirst doc db)
    else
      create_document_session_go rest (db ++ [insertRow doc])

/-- Embeds `create_document_session` (models.py). The function catches every
database exception and rolls the session back, so a database failure is
modelled by the flag `dbOk`: when false the table is left unchanged (the
failure is taken to occur before any commit). -/
def create_document_session (docs : List Document) (db : List DocumentMetadata)
    (dbOk : Bool) : List DocumentMetadata :=
  if dbOk then create_document_session_go docs db else db

/-- Embeds `delete_document_metadata_by_doc_id` (models.py): deletes the
first row with the given `doc_id` and returns `true`; returns `false` when no
row matches or when the database errors (`dbOk = false`), in which case the
table is unchanged (the session is rolled back). The function catches its own
exceptions, so it never raises. -/
def delete_document_metadata_by_doc_id (db : List DocumentMetadata) (doc_id : String)
    (dbOk : Bool) : Bool × List DocumentMetadata :=
  if dbOk then
    match db.find? (fun d => d.doc_id == doc_id) with
    | some _ =>
      (true, db.eraseP (fun d => d.doc_id == doc_id))
    | none => (false, db)
  else
    (false, db)

/-- State of the synchronization protocol: the doc ids held by the external
vector index, the rows of the `document_metadata` table, the filenames in the
on-disk `data` folder, and a count of adapter calls made so far (each call to
`index.insert`, `index.update_ref_doc` or `index.delete_ref_doc` counts,
whether it succeeds or raises). -/
structure SyncState where
  index : List String
  db : List DocumentMetadata
  files : List String
  calls : Nat
  deriving Repr, DecidableEq

/-- Embeds `save_file_to_data_folder` (utils.py) on success: the file is
written into the data folder, overwriting an existing file of that name. -/
def addFile (files : List String) (filename : String) : List String :=
  if files.contains filename then files else files ++ [filename]

/-- Embeds `delete_file` (utils.py): removes the file from the data folder
when present, does nothing otherwise. -/
def deleteFile (files : List String) (filename : String) : List String :=
  files.filter (fun f => f != filename)

/-- Python truthiness of the result of `get_doc_id_from_filename` as used by
the endpoints (`if not doc_id:`): both `None` and the empty string count as
missing. -/
def truthyDocId (o : Option String) : Option String :=
  match o with
  | some s => if s == "" then none else some s
  | none => none

/-- Outcome of the `/upload/` endpoint (main.py `upload_file`). -/
inductive UploadOutcome where
  /-- Early return "File already exist in database. Please use update." -/
  | alreadyExists
  /-- Return "writing file into ... failed" when the disk write errors. -/
  | saveFailed
  /-- Return "File saved and indexed successfully". -/
  | indexedOk
  /-- The adapter call `self.index.insert(doc)` raised; the exception
  propagates out of `add_file_context_to_agent` into the endpoint's
  `except`, which returns status "upload file failed". -/
  | indexingFailed
  deriving Repr, DecidableEq

/-- Embeds the `/upload/` endpoint `upload_file` (main.py) composed with
`AgentDocument.add_file_context_to_agent` (agent.py). `docs` are the
documents the external reader loads from the saved file; `saveOk` is whether
the disk write succeeds, `indexInsertOk` whether the adapter's insert calls
succeed (a failing run raises on the first insert), and `dbOk` whether the
metadata-store session commits. The agent is assumed initialized. -/
def upload_file (st : SyncState) (filename : String) (docs : List Document)
    (saveOk indexInsertOk dbOk : Bool) : UploadOutcome × SyncState :=
  if check_document_exists_with_filename st.db filename then
    (.alreadyExists, st)
  else if !saveOk then
    (.saveFailed, st)
  else
    let st1 : SyncState := { st with files := addFile st.files filename }
    let st2 : SyncState := { st1 with db := create_document_session docs st1.db dbOk }
    if docs.isEmpty then
      (.indexedOk, st2)
    else if indexInsertOk then
      (.indexedOk, { st2 with
        index := st2.index ++ docs.map (fun d => d.doc_id)
        calls := st2.calls + docs.length })
    else
      (.indexingFailed, { st2 with calls := st2.calls + 1 })

/-- Outcome of the `/update/` endpoint (main.py `update_file`). -/
inductive UpdateOutcome where
  /-- Early return "File does not exist in database. Please upload first." -/
  | notFound
  /-- Return "Could not retrieve document ID from filename." -/
  | noDocId
  /-- Return "writing file into ... failed" when the disk write errors. -/
  | saveFailed
  /-- Return "File updated and re-indexed successfully". -/
  | updatedOk
  /-- The adapter call `self.index.update_ref_doc(...)` raised; the exception
  propagates into the endpoint's `except`, which returns status
  "update file failed". -/
  | reindexFailed
  deriving Repr, DecidableEq

/-- Embeds `AgentDocument.update_file_context_in_agent` (agent.py): every
loaded document gets its `doc_id` overwritten with the existing id, each is
passed to the adapter's `update_ref_doc` (replacing rather than duplicating,
so the index's doc-id set only gains `doc_id` if it was absent), and then
`create_document_session` updates the metadata rows. A failing adapter run
raises on the first `update_ref_doc`, before any metadata write. The file was
just saved, so the `filepath.exists()` guard passes. -/
def update_file_context_in_agent (st : SyncState) (docs : List Document)
    (doc_id : String) (updateRefOk dbOk : Bool) : Bool × SyncState :=
  let tagged := docs.map (fun d => { d with doc_id := doc_id })
  if docs.isEmpty then
    (true, { st with db := create_document_session tagged st.db dbOk })
  else if updateRefOk then
    let st1 : SyncState := { st with
      index := if st.index.contains doc_id then st.index else st.index ++ [doc_id]
      calls := st.calls + docs.length }
    (true, { st1 with db := create_document_session tagged st1.db dbOk })
  else
    (false, { st with calls := st.calls + 1 })

/-- Embeds the `/update/` endpoint `update_file` (main.py): reject when the
filename has no row, then look up the doc id (Python-falsy check), save the
file, and call `update_file_context_in_agent`. -/
def update_file (st : SyncState) (filename : String) (docs : List Document)
    (saveOk updateRefOk dbOk : Bool) : UpdateOutcome × SyncState :=
  if !check_document_exists_with_filename st.db filename then
    (.notFound, st)
  else
    match truthyDocId (get_doc_id_from_filename st.db filename) with
    | none => (.noDocId, st)
    | some doc_id =>
      if !saveOk then
        (.saveFailed, st)
      else
        let st1 : SyncState := { st with files := addFile st.files filename }
        let r := update_file_context_in_agent st1 docs doc_id updateRefOk dbOk
        if r.1 then (.updatedOk, r.2) else (.reindexFailed, r.2)

/-- Outcome of the `/delete/{filename}` endpoint (main.py
`delete_file_endpoint`). -/
inductive DeleteOutcome where
  /-- Return "Could not retrieve document ID from filename." -/
  | noDocId
  /-- Return "Failed to delete from vector store." -/
  | indexDeleteFailed
  /-- Return "File deleted successfully from disk and vector store." -/
  | deletedOk
  deriving Repr, DecidableEq

/-- Embeds `AgentDocument.delete_file_context_in_agent` (agent.py): call the
adapter's `delete_ref_doc`, then `delete_document_metadata_by_doc_id`, and
return `True`; any exception is caught and yields `False`. The boolean result
of the metadata deletion is ignored by the source, and that function catches
its own exceptions, so the only way to reach the `except` branch is the
adapter raising (`indexDeleteOk = false`), in which case nothing has been
mutated. -/
def delete_file_context_in_agent (st : SyncState) (doc_id : String)
    (indexDeleteOk metaDbOk : Bool) : Bool × SyncState :=
  if indexDeleteOk then
    let st1 : SyncState := { st with
      index := st.index.filter (fun i => i != doc_id)
      calls := st.calls + 1 }
    let r := delete_document_metadata_by_doc_id st1.db doc_id metaDbOk
    (true, { st1 with db := r.2 })
  else
    (false, { st with calls := st.calls + 1 })

/-- Embeds the `/delete/{filename}` endpoint `delete_file_endpoint`
(main.py): look up the doc id (Python-falsy check), call
`delete_file_context_in_agent`, and only when it reports success delete the
on-disk file and report success. -/
def delete_file_endpoint (st : SyncState) (filename : String)
    (indexDeleteOk metaDbOk : Bool) : DeleteOutcome × SyncState :=
  match truthyDocId (get_doc_id_from_filename st.db filename) with
  | none => (.noDocId, st)
  | some doc_id =>
    let r := delete_file_context_in_agent st doc_id indexDeleteOk metaDbOk
    if r.1 then
      (.deletedOk, { r.2 with files := deleteFile r.2.files filename })
    else
      (.indexDeleteFailed, r.2)

/-- Any sequence of `/update/` requests for one filename, each round given
its loaded documents and the success flags of its external calls (disk
write, adapter `update_ref_doc`, metadata commit), applied in order. -/
def applyUpdates (f : String) : SyncState → List (List Document × Bool × Bool × Bool) → SyncState
  | st, [] => st
  | st, (docs, so, ro, dbo) :: rest =>
    applyUpdates f (update_file st f docs so ro dbo).2 rest

/-- Value of a field of the JSON object scraped from the completion-service
reply: a number, a string, or a list of strings (the shapes the rubric prompt
requests and the repository code reads). -/
inductive JVal where
  | num (q : ℚ)
  | str (s : String)
  | strs (xs : List String)
  deriving Repr, DecidableEq

/-- Parsed JSON object: association list of field name to value, looked up
with `dict.get` semantics. -/
abbrev JsonDict := List (String × JVal)

/-- Embeds `ContextEvaluator._extract_json` (context_evaluator.py) at the
parse-outcome boundary: the regex scan over the raw reply text and
`json.loads` are Python library behaviour, so a reply is represented by
whether a JSON object could be extracted from it (`some dict`) or not
(`none`); on failure the source returns the empty dict `{}`. -/
def extract_json (parsed : Option JsonDict) : JsonDict :=
  parsed.getD []

/-- Digits of a numeral to its value. -/
def digitsToNat (cs : List Char) : Nat :=
  cs.foldl (fun n c => n * 10 + (c.toNat - 48)) 0

/-- True when every character is a decimal digit. -/
def allDigits (cs : List Char) : Bool :=
  cs.all Char.isDigit

/-- Models Python's `float()` on a plain decimal string: optional sign,
digits with at most one decimal point, surrounding whitespace stripped.
Exponent notation and the special values `inf`/`nan` are outside the
rubric's value space and are not modelled. -/
def parsePyFloat (s : String) : Option ℚ :=
  let t := s.trim
  let p :=
    if t.startsWith "-" then ((-1 : ℚ), t.drop 1)
    else if t.startsWith "+" then ((1 : ℚ), t.drop 1)
    else ((1 : ℚ), t)
  match (p.2.splitOn ".").map String.toList with
  | [intPart] =>
    if intPart.isEmpty || !allDigits intPart then none
    else some (p.1 * (digitsToNat intPart : ℚ))
  | [intPart, fracPart] =>
    if (intPart.isEmpty && fracPart.isEmpty) || !allDigits intPart || !allDigits fracPart then
      none
    else
      some (p.1 * ((digitsToNat intPart : ℚ) +
        (digitsToNat fracPart : ℚ) / ((10 : ℚ) ^ fracPart.length)))
  | _ => none

/-- Models Python's `float(x)` on a JSON field value: numbers pass through,
numeric strings are parsed, anything else raises a conversion error. -/
def pyFloat : JVal → Except String ℚ
  | .num q => .ok q
  | .str s =>
    match parsePyFloat s with
    | some q => .ok q
    | none => .error ("could not convert string to float: '" ++ s ++ "'")
  | .strs _ => .error "float() argument must be a string or a real number, not 'list'"

/-- Result dict of `evaluate_relevance` / `evaluate_completeness`: the
sub-score, the explanation value, and the third field (`key_points` or
`missing_aspects`). -/
structure SubEval where
  score : ℚ
  explanation : JVal
  extra : JVal
  deriving Repr, DecidableEq

/-- Embeds `ContextEvaluator.evaluate_relevance` (context_evaluator.py). The
completion call either raises (`.error e`, its message) or yields a reply
represented by its JSON parse outcome. Inside the `try`, the score is
`float(result.get("score", 0.0))`; a conversion failure lands in the
`except` branch, which returns score `0.0` with explanation
`"Evaluation error: ..."`. The function never raises. -/
def evaluate_relevance (llmResult : Except String (Option JsonDict)) : SubEval :=
  match llmResult with
  | .error e =>
    { score := 0, explanation := .str ("Evaluation error: " ++ e), extra := .strs [] }
  | .ok reply =>
    let result := extract_json reply
    match pyFloat ((result.lookup "score").getD (.num 0)) with
    | .error e =>
      { score := 0, explanation := .str ("Evaluation error: " ++ e), extra := .strs [] }
    | .ok q =>
      { score := q
        explanation := (result.lookup "explanation").getD (.str "")
        extra := (result.lookup "key_points").getD (.strs []) }

/-- Embeds `ContextEvaluator.evaluate_completeness` (context_evaluator.py):
identical structure to `evaluate_relevance`, with `missing_aspects` as the
third field. -/
def evaluate_completeness (llmResult : Except String (Option JsonDict)) : SubEval :=
  match llmResult with
  | .error e =>
    { score := 0, explanation := .str ("Evaluation error: " ++ e), extra := .strs [] }
  | .ok reply =>
    let result := extract_json reply
    match pyFloat ((result.lookup "score").getD (.num 0)) with
    | .error e =>
      { score := 0, explanation := .str ("Evaluation error: " ++ e), extra := .strs [] }
    | .ok q =>
      { score := q
        explanation := (result.lookup "explanation").getD (.str "")
        extra := (result.lookup "missing_aspects").getD (.strs []) }

/-- Embeds `ContextEvaluator._get_recommendation` (context_evaluator.py). -/
def get_recommendation (score : ℚ) : String :=
  if score ≥ 8 / 10 then "High quality context - suitable for use"
  else if score ≥ 6 / 10 then "Moderate quality - may need additional context"
  else if score ≥ 4 / 10 then "Low quality - consider refining query or adding more sources"
  else "Poor quality - context may not be relevant or complete"

/-- Report returned by `evaluate_quality` (context_evaluator.py). -/
structure QualityReport where
  overall_quality_score : ℚ
  relevance : SubEval
  completeness : SubEval
  recommendation : String
  deriving Repr, DecidableEq

/-- Embeds `ContextEvaluator.evaluate_quality` (context_evaluator.py): run
both sub-evaluations, combine as `relevance * 0.6 + completeness * 0.4`, and
attach the recommendation band for the overall score. -/
def evaluate_quality (relResult compResult : Except String (Option JsonDict)) : QualityReport :=
  let rel := evaluate_relevance relResult
  let comp := evaluate_completeness compResult
  let overall := rel.score * (6 / 10) + comp.score * (4 / 10)
  { overall_quality_score := overall
    relevance := rel
    completeness := comp
    recommendation := get_recommendation overall }

/-- Token of an arithmetic expression over the calculator's allowed
characters: Python's lexer pairs `**` and `//` into single operators. -/
inductive Tok where
  | num (q : ℚ)
  | lp
  | rp
  | plus
  | minus
  | star
  | slash
  | dstar
  | dslash
  deriving Repr, DecidableEq

/-- Character usable inside a numeric literal. -/
def isNumChar (c : Char) : Bool :=
  c.isDigit || c == '.'

/-- Lexer for the arithmetic subset reachable through the calculator's
character filter, modelling Python's tokenizer: spaces are skipped, `**` and
`//` are single operators, and runs of digits and dots must form a valid
decimal literal. The fuel argument bounds recursion and is in practice never
exhausted when called with more fuel than characters. -/
def tokenize : Nat → List Char → Except String (List Tok)
  | 0, _ => .error "invalid syntax"
  | _, [] => .ok []
  | fuel + 1, c :: cs =>
    if c == ' ' then tokenize fuel cs
    else if c == '(' then do
      let ts ← tokenize fuel cs
      .ok (.lp :: ts)
    else if c == ')' then do
      let ts ← tokenize fuel cs
      .ok (.rp :: ts)
    else if c == '+' then do
      let ts ← tokenize fuel cs
      .ok (.plus :: ts)
    else if c == '-' then do
      let ts ← tokenize fuel cs
      .ok (.minus :: ts)
    else if c == '*' then
      match cs with
      | '*' :: cs2 => do
        let ts ← tokenize fuel cs2
        .ok (.dstar :: ts)
      | _ => do
        let ts ← tokenize fuel cs
        .ok (.star :: ts)
    else if c == '/' then
      match cs with
      | '/' :: cs2 => do
        let ts ← tokenize fuel cs2
        .ok (.dslash :: ts)
      | _ => do
        let ts ← tokenize fuel cs
        .ok (.slash :: ts)
    else if isNumChar c then
      match parsePyFloat (String.mk ((c :: cs).takeWhile isNumChar)) with
      | some q => do
        let ts ← tokenize fuel ((c :: cs).dropWhile isNumChar)
        .ok (.num q :: ts)
      | none => .error "invalid decimal literal"
    else .error "invalid character"

/-- Models Python's true division, raising on a zero divisor. -/
def pyDiv (a b : ℚ) : Except String ℚ :=
  if b = 0 then .error "division by zero" else .ok (a / b)

/-- Models Python's floor division `//`, raising on a zero divisor. -/
def pyFloorDiv (a b : ℚ) : Except String ℚ :=
  if b = 0 then .error "division by zero" else .ok ((⌊a / b⌋ : ℤ) : ℚ)

/-- Models Python's power `**` for integer exponents (a zero base with a
negative exponent raises); a fractional exponent produces an irrational
float in Python and is outside this rational model, so it is mapped to an
error. -/
def pyPow (a b : ℚ) : Except String ℚ :=
  if b.den = 1 then
    if a = 0 && b.num < 0 then .error "zero cannot be raised to a negative power"
    else .ok (a ^ b.num)
  else .error "non-integer exponent (outside the rational model)"

mutual

/-- Python expression level: terms combined by `+` and `-`. -/
def pExpr : Nat → List Tok → Except String (ℚ × List Tok)
  | 0, _ => .error "invalid syntax"
  | fuel + 1, ts => do
    let r ← pTerm fuel ts
    pExprLoop fuel r.1 r.2

/-- Left-associative fold of `+` and `-` over terms. -/
def pExprLoop : Nat → ℚ → List Tok → Except String (ℚ × List Tok)
  | 0, _, _ => .error "invalid syntax"
  | fuel + 1, acc, ts =>
    match ts with
    | .plus :: rest => do
      let r ← pTerm fuel rest
      pExprLoop fuel (acc + r.1) r.2
    | .minus :: rest => do
      let r ← pTerm fuel rest
      pExprLoop fuel (acc - r.1) r.2
    | _ => .ok (acc, ts)

/-- Python term level: unary expressions combined by `*`, `/` and `//`. -/
def pTerm : Nat → List Tok → Except String (ℚ × List Tok)
  | 0, _ => .error "invalid syntax"
  | fuel + 1, ts => do
    let r ← pUnary fuel ts
    pTermLoop fuel r.1 r.2

/-- Left-associative fold of `*`, `/` and `//` over unary expressions. -/
def pTermLoop : Nat → ℚ → List Tok → Except String (ℚ × List Tok)
  | 0, _, _ => .error "invalid syntax"
  | fuel + 1, acc, ts =>
    match ts with
    | .star :: rest => do
      let r ← pUnary fuel rest
      pTermLoop fuel (acc * r.1) r.2
    | .slash :: rest => do
      let r ← pUnary fuel rest
      let v ← pyDiv acc r.1
      pTermLoop fuel v r.2
    | .dslash :: rest => do
      let r ← pUnary fuel rest
      let v ← pyFloorDiv acc r.1
      pTermLoop fuel v r.2
    | _ => .ok (acc, ts)

/-- Python unary level: any run of prefixed `+` and `-` signs over a power
expression. -/
def pUnary : Nat → List Tok → Except String (ℚ × List Tok)
  | 0, _ => .error "invalid syntax"
  | fuel + 1, ts =>
    match ts with
    | .minus :: rest => do
      let r ← pUnary fuel rest
      .ok (-r.1, r.2)
    | .plus :: rest => pUnary fuel rest
    | _ => pPower fuel ts

/-- Python power level: a primary optionally raised by `**` to a unary
expression (right-associative, binding tighter than a leading sign). -/
def pPower : Nat → List Tok → Except String (ℚ × List Tok)
  | 0, _ => .error "invalid syntax"
  | fuel + 1, ts => do
    let r ← pPrimary fuel ts
    match r.2 with
    | .dstar :: rest => do
      let r2 ← pUnary fuel rest
      let v ← pyPow r.1 r2.1
      .ok (v, r2.2)
    | _ => .ok r

/-- Python primary level: a numeric literal or a parenthesized expression. -/
def pPrimary : Nat → List Tok → Except String (ℚ × List Tok)
  | 0, _ => .error "invalid syntax"
  | fuel + 1, ts =>
    match ts with
    | .num q :: rest => .ok (q, rest)
    | .lp :: rest => do
      let r ← pExpr fuel rest
      match r.2 with
      | .rp :: rest2 => .ok (r.1, rest2)
      | _ => .error "invalid syntax"
    | _ => .error "invalid syntax"

end

/-- Models Python's `eval` restricted to arithmetic over the calculator's
allowed characters: lex, parse a full expression, require all input
consumed; every failure (syntax error, division by zero, unmodelled power)
is an error value, matching an exception in the source. -/
def pyEvalArith (expression : String) : Except String ℚ := do
  let toks ← tokenize (expression.length + 1) expression.toList
  let r ← pExpr (5 * toks.length + 5) toks
  match r.2 with
  | [] => .ok r.1
  | _ => .error "invalid syntax"

/-- Character set accepted by the calculator tool. -/
def allowedCalcChars : List Char :=
  "0123456789+-*/.() ".toList

/-- Guard of `CalculatorMCPTool.execute` (mcp_tools.py): every character of
the expression must be in the allowed set. -/
def calcCharsOk (expression : String) : Bool :=
  expression.toList.all (fun c => allowedCalcChars.contains c)

/-- Embeds `CalculatorMCPTool.execute` (mcp_tools.py): reject expressions
with characters outside the allowed set before any evaluation; otherwise
evaluate, and render either the result or the caught exception as a string.
Totality of this function embeds the source's catch-all `except`. -/
def calc_execute (expression : String) : String :=
  if !calcCharsOk expression then
    "Error: Invalid characters in expression"
  else
    match pyEvalArith expression with
    | .ok v => "Result: " ++ toString v
    | .error e => "Error calculating '" ++ expression ++ "': " ++ e

/-! Concrete fixtures used by witnesses and counterexamples. -/

/-- Document loaded from a small uploaded file, with full reader metadata. -/
def docA : Document :=
  ⟨"id1", some "a.txt", some "text/plain", some "data/a.txt", some 3, some 1, some 5, some 5⟩

/-- Document loaded when the same file is resubmitted: larger, and its
metadata carries no `modified_at` or `accessed_at` key. -/
def docB : Document :=
  ⟨"idB", some "a.txt", some "text/plain", some "data/a.txt", some 20, some 9, none, none⟩

/-- Metadata row created for `docA`. -/
def rowA : DocumentMetadata := insertRow docA

/-- Fresh state: nothing indexed, no rows, no files. -/
def stEmpty : SyncState := ⟨[], [], [], 0⟩

/-- State after a successful upload of `docA` as "a.txt". -/
def stOne : SyncState := ⟨["id1"], [rowA], ["a.txt"], 1⟩

/-- Completion reply whose JSON object carries the score 1.0. -/
def replyScoreOne : Except String (Option JsonDict) :=
  Except.ok (some [("score", JVal.num 1)])

/-- Projection of the table to the columns relevant for identity: filename
and doc id of each row, in order. -/
def idsProj (db : List DocumentMetadata) : List (String × String) :=
  db.map (fun r => (r.filename, r.doc_id))

theorem idsProj_updateDocFirst (doc : Document) (db : List DocumentMetadata) :
    idsProj (updateDocFirst doc db) = idsProj db := by
  induction db with
  | nil => rfl
  | cons r rest ih =>
    by_cases h : (r.doc_id == doc.doc_id) = true
    · simp [updateDocFirst, h, idsProj]
    · simp only [updateDocFirst, h, if_false, Bool.false_eq_true]
      simp only [idsProj, List.map_cons] at ih ⊢
      rw [ih]

theorem check_doc_id_idsProj (db : List DocumentMetadata) (d : String) :
    check_document_exists_with_doc_id db d = (idsProj db).any (fun p => p.2 == d) := by
  induction db with
  | nil => rfl
  | cons r rest ih =>
    simp only [check_document_exists_with_doc_id, idsProj, List.map_cons, List.any_cons] at ih ⊢
    rw [ih]

theorem get_doc_id_idsProj (db : List DocumentMetadata) (f : String) :
    get_doc_id_from_filename db f
      = ((idsProj db).find? (fun p => p.1 == f)).map (fun p => p.2) := by
  induction db with
  | nil => rfl
  | cons r rest ih =>
    by_cases h : (r.filename == f) = true
    · simp [get_doc_id_from_filename, idsProj, List.find?_cons, h]
    · simp only [get_doc_id_from_filename, idsProj, List.map_cons, List.find?_cons] at ih ⊢
      simp only [h, Bool.false_eq_true, if_false]
      exact ih

theorem get_doc_id_congr {db1 db2 : List DocumentMetadata}
    (h : idsProj db1 = idsProj db2) (f : String) :
    get_doc_id_from_filename db1 f = get_doc_id_from_filename db2 f := by
  rw [get_doc_id_idsProj, get_doc_id_idsProj, h]

theorem check_doc_id_congr {db1 db2 : List DocumentMetadata}
    (h : idsProj db1 = idsProj db2) (d : String) :
    check_document_exists_with_doc_id db1 d = check_document_exists_with_doc_id db2 d := by
  rw [check_doc_id_idsProj, check_doc_id_idsProj, h]

theorem get_doc_id_some_exists {db : List DocumentMetadata} {f d : String}
    (h : get_doc_id_from_filename db f = some d) :
    check_document_exists_with_doc_id db d = true := by
  induction db with
  | nil => simp [get_doc_id_from_filename] at h
  | cons r rest ih =>
    by_cases hr : (r.filename == f) = true
    · simp only [get_doc_id_from_filename, List.find?_cons, hr, if_true, Option.map_some] at h
      have hd : r.doc_id = d := by injection h
      simp [check_document_exists_with_doc_id, hd]
    · simp only [get_doc_id_from_filename, List.find?_cons, hr, Bool.false_eq_true, if_false] at h
      have := ih h
      simp only [check_document_exists_with_doc_id, List.any_cons] at this ⊢
      simp [this]

theorem check_filename_of_get_doc_id {db : List DocumentMetadata} {f d : String}
    (h : get_doc_id_from_filename db f = some d) :
    check_document_exists_with_filename db f = true := by
  induction db with
  | nil => simp [get_doc_id_from_filename] at h
  | cons r rest ih =>
    by_cases hr : (r.filename == f) = true
    · simp [check_document_exists_with_filename, hr]
    · simp only [get_doc_id_from_filename, List.find?_cons, hr, Bool.false_eq_true, if_false] at h
      have := ih h
      simp only [check_document_exists_with_filename, List.any_cons] at this ⊢
      simp [this]

theorem cds_go_tagged_idsProj (d : String) (docs : List Document) :
    ∀ db : List DocumentMetadata, check_document_exists_with_doc_id db d = true →
      idsProj (create_document_session_go (docs.map (fun x => { x with doc_id := d })) db)
        = idsProj db := by
  induction docs with
  | nil => intro db _; rfl
  | cons doc rest ih =>
    intro db hdb
    simp only [List.map_cons, create_document_session_go, hdb, if_true]
    have hup : idsProj (updateDocFirst { doc with doc_id := d } db) = idsProj db :=
      idsProj_updateDocFirst _ _
    have hdb2 : check_document_exists_with_doc_id (updateDocFirst { doc with doc_id := d } db) d
        = true := by
      rw [check_doc_id_congr hup]; exact hdb
    rw [ih _ hdb2, hup]

theorem truthyDocId_some {d : String} (h : d ≠ "") : truthyDocId (some d) = some d := by
  simp [truthyDocId, h]

theorem update_file_step_doc_id (st : SyncState) (f : String) (docs : List Document)
    (so ro dbo : Bool) :
    get_doc_id_from_filename ((update_file st f docs so ro dbo).2).db f
      = get_doc_id_from_filename st.db f := by
  unfold update_file
  by_cases hchk : check_document_exists_with_filename st.db f = true
  · rcases hg : truthyDocId (get_doc_id_from_filename st.db f) with _ | d
    · simp [hchk, hg]
    · have hgd : get_doc_id_from_filename st.db f = some d := by
        rcases h0 : get_doc_id_from_filename st.db f with _ | s
        · rw [h0] at hg; simp [truthyDocId] at hg
        · rw [h0] at hg
          by_cases hs : (s == "") = true
          · simp [truthyDocId, hs] at hg
          · simp only [truthyDocId, hs, Bool.false_eq_true, if_false] at hg
            exact hg
      have hex : check_document_exists_with_doc_id st.db d = true := get_doc_id_some_exists hgd
      have hcds : ∀ dbo' : Bool,
          get_doc_id_from_filename
            (create_document_session (docs.map (fun x => { x with doc_id := d })) st.db dbo') f
            = get_doc_id_from_filename st.db f := by
        intro dbo'
        cases dbo' with
        | false => rfl
        | true =>
          exact get_doc_id_congr (cds_go_tagged_idsProj d docs st.db hex) f
      cases so with
      | false => simp [hchk, hg]
      | true =>
        by_cases hde : docs.isEmpty = true
        · simp [hchk, hg, update_file_context_in_agent, hde, hcds]
        · cases ro with
          | false => simp [hchk, hg, update_file_context_in_agent, hde]
          | true => simp [hchk, hg, update_file_context_in_agent, hde, hcds]
  · simp [hchk]

theorem updateDocFirst_preserves_fixed (doc : Document) (db : List DocumentMetadata) :
    (updateDocFirst doc db).map
        (fun r => (r.filename, r.doc_id, r.mime_type, r.file_path, r.creation_date))
      = db.map (fun r => (r.filename, r.doc_id, r.mime_type, r.file_path, r.creation_date)) := by
  induction db with
  | nil => rfl
  | cons r rest ih =>
    by_cases h : (r.doc_id == doc.doc_id) = true
    · simp [updateDocFirst, h]
    · simp only [updateDocFirst, h, Bool.false_eq_true, if_false, List.map_cons]
      rw [ih]

/-! Claim theorems. -/

/-- Claim C1, counterexample: starting from an empty system, uploading
"a.txt" with a failing Vector Index Adapter (`indexInsertOk = false`) makes
the operation fail, yet a `DocumentRecord` metadata row for "a.txt" has been
written — the source inserts the metadata (`create_document_session`) before
calling `index.insert`, so the claimed "adapter first, metadata only
afterwards; on adapter error no metadata row is written" is false. -/
theorem upload_metadata_on_index_error_cex :
    (upload_file stEmpty "a.txt" [docA] true false true).1 = UploadOutcome.indexingFailed ∧
    check_document_exists_with_filename
      (upload_file stEmpty "a.txt" [docA] true false true).2.db "a.txt" = true := by
  constructor <;> rfl

/-- Claim C1 (amended): for every file added via addDocument on a fresh
filename, the DocumentRecord metadata row is inserted first and the content
is submitted to the Vector Index Adapter only afterwards; if the adapter
call errors, the operation fails, but the metadata row has already been
written (the table holds exactly what `create_document_session` inserted,
identical to the success case), while the index itself is unchanged. -/
theorem upload_inserts_metadata_before_index (st : SyncState) (f : String) (doc : Document)
    (h : check_document_exists_with_filename st.db f = false) :
    (upload_file st f [doc] true false true).1 = UploadOutcome.indexingFailed ∧
    (upload_file st f [doc] true false true).2.db = create_document_session [doc] st.db true ∧
    (upload_file st f [doc] true false true).2.index = st.index ∧
    (upload_file st f [doc] true true true).2.db = create_document_session [doc] st.db true := by
  refine ⟨?_, ?_, ?_, ?_⟩ <;> simp [upload_file, h]

/-- Claim C1 witness: the amended theorem applied to the empty system and
the concrete document `docA`. -/
theorem upload_inserts_metadata_before_index_witness :
    check_document_exists_with_filename stEmpty.db "a.txt" = false ∧
    ((upload_file stEmpty "a.txt" [docA] true false true).1 = UploadOutcome.indexingFailed ∧
     (upload_file stEmpty "a.txt" [docA] true false true).2.db
       = create_document_session [docA] stEmpty.db true ∧
     (upload_file stEmpty "a.txt" [docA] true false true).2.index = stEmpty.index ∧
     (upload_file stEmpty "a.txt" [docA] true true true).2.db
       = create_document_session [docA] stEmpty.db true) :=
  ⟨by decide, upload_inserts_metadata_before_index stEmpty "a.txt" docA (by decide)⟩

/-- Claim C2: for every delete of an existing document (a filename whose row
yields a truthy doc id), if the adapter's `deleteById` fails then the
endpoint reports `IndexDeletionFailure` ("Failed to delete from vector
store."), and afterwards the metadata table, the on-disk files and the index
are all exactly as before — no partial deletion. -/
theorem delete_index_failure_preserves (st : SyncState) (f d : String) (metaDbOk : Bool)
    (h1 : get_doc_id_from_filename st.db f = some d) (h2 : d ≠ "") :
    (delete_file_endpoint st f false metaDbOk).1 = DeleteOutcome.indexDeleteFailed ∧
    (delete_file_endpoint st f false metaDbOk).2.db = st.db ∧
    (delete_file_endpoint st f false metaDbOk).2.files = st.files ∧
    (delete_file_endpoint st f false metaDbOk).2.index = st.index := by
  have hg : truthyDocId (get_doc_id_from_filename st.db f) = some d := by
    rw [h1]; exact truthyDocId_some h2
  refine ⟨?_, ?_, ?_, ?_⟩ <;>
    simp [delete_file_endpoint, hg, delete_file_context_in_agent]

/-- Claim C2 witness: deleting "a.txt" from the one-document state with a
failing adapter. -/
theorem delete_index_failure_preserves_witness :
    (get_doc_id_from_filename stOne.db "a.txt" = some "id1" ∧ "id1" ≠ "") ∧
    ((delete_file_endpoint stOne "a.txt" false true).1 = DeleteOutcome.indexDeleteFailed ∧
     (delete_file_endpoint stOne "a.txt" false true).2.db = stOne.db ∧
     (delete_file_endpoint stOne "a.txt" false true).2.files = stOne.files ∧
     (delete_file_endpoint stOne "a.txt" false true).2.index = stOne.index) :=
  ⟨⟨by decide, by decide⟩,
    delete_index_failure_preserves stOne "a.txt" "id1" true (by decide) (by decide)⟩

/-- Claim C3, counterexample: deleting "a.txt" when the index deletion
succeeds but the metadata-row deletion fails (`metaDbOk = false`, the
source's `delete_document_metadata_by_doc_id` returns `False`) still reports
full success, with the metadata row for "a.txt" left in the table —
`delete_file_context_in_agent` ignores the metadata call's boolean result,
so "success only if both succeed" is false. -/
theorem delete_success_without_metadata_delete_cex :
    (delete_file_endpoint stOne "a.txt" true false).1 = DeleteOutcome.deletedOk ∧
    check_document_exists_with_filename
      (delete_file_endpoint stOne "a.txt" true false).2.db "a.txt" = true := by
  constructor <;> rfl

/-- Claim C3 (amended): deleteDocument reports success exactly when the
vector-index deletion succeeds; the result of the metadata-row deletion is
ignored, so when the metadata store fails the endpoint still reports
success and the metadata rows are left untouched. -/
theorem delete_success_depends_only_on_index (st : SyncState) (f d : String)
    (h1 : get_doc_id_from_filename st.db f = some d) (h2 : d ≠ "") :
    (∀ metaDbOk : Bool,
      (delete_file_endpoint st f true metaDbOk).1 = DeleteOutcome.deletedOk) ∧
    (delete_file_endpoint st f true false).2.db = st.db := by
  have hg : truthyDocId (get_doc_id_from_filename st.db f) = some d := by
    rw [h1]; exact truthyDocId_some h2
  refine ⟨fun metaDbOk => ?_, ?_⟩ <;>
    simp [delete_file_endpoint, hg, delete_file_context_in_agent,
      delete_document_metadata_by_doc_id]

/-- Claim C3 witness: the amended theorem at the one-document state. -/
theorem delete_success_depends_only_on_index_witness :
    (get_doc_id_from_filename stOne.db "a.txt" = some "id1" ∧ "id1" ≠ "") ∧
    ((∀ metaDbOk : Bool,
       (delete_file_endpoint stOne "a.txt" true metaDbOk).1 = DeleteOutcome.deletedOk) ∧
     (delete_file_endpoint stOne "a.txt" true false).2.db = stOne.db) :=
  ⟨⟨by decide, by decide⟩,
    delete_success_depends_only_on_index stOne "a.txt" "id1" (by decide) (by decide)⟩

/-- Claim C4: for every filename that already has a DocumentRecord, the
upload endpoint fails with AlreadyExists ("File already exist in database.
Please use update.") and returns the state bit-for-bit unchanged: no index
mutation, no metadata mutation, no file write, and zero additional adapter
calls. -/
theorem upload_existing_filename_no_mutation (st : SyncState) (f : String)
    (docs : List Document) (saveOk indexOk dbOk : Bool)
    (h : check_document_exists_with_filename st.db f = true) :
    upload_file st f docs saveOk indexOk dbOk = (UploadOutcome.alreadyExists, st) := by
  simp [upload_file, h]

/-- Claim C4 witness: re-uploading "a.txt" into the one-document state. -/
theorem upload_existing_filename_no_mutation_witness :
    check_document_exists_with_filename stOne.db "a.txt" = true ∧
    upload_file stOne "a.txt" [docB] true true true = (UploadOutcome.alreadyExists, stOne) :=
  ⟨by decide, upload_existing_filename_no_mutation stOne "a.txt" [docB] true true true (by decide)⟩

/-- Claim C5: the documentId associated with a filename is invariant under
any number of `/update/` requests, whatever documents the reader loads and
whether each round's disk write, adapter call and metadata commit succeed or
fail: the update path re-tags every loaded document with the existing doc id
before re-submitting, and the metadata update branch never rewrites the
`doc_id` column. -/
theorem update_preserves_doc_id (st : SyncState) (f : String)
    (rounds : List (List Document × Bool × Bool × Bool)) :
    get_doc_id_from_filename (applyUpdates f st rounds).db f
      = get_doc_id_from_filename st.db f := by
  induction rounds generalizing st with
  | nil => rfl
  | cons round rest ih =>
    rcases round with ⟨docs, so, ro, dbo⟩
    rw [applyUpdates, ih, update_file_step_doc_id]

/-- Claim C6: for every filename with no DocumentRecord, the update endpoint
fails with NotFound ("File does not exist in database. Please upload
first.") and returns the state unchanged — nothing is written to the index,
the metadata table or the disk. -/
theorem update_missing_filename_not_found (st : SyncState) (f : String)
    (docs : List Document) (so ro dbo : Bool)
    (h : check_document_exists_with_filename st.db f = false) :
    update_file st f docs so ro dbo = (UpdateOutcome.notFound, st) := by
  simp [update_file, h]

/-- Claim C6 witness: updating "a.txt" against the empty system. -/
theorem update_missing_filename_not_found_witness :
    check_document_exists_with_filename stEmpty.db "a.txt" = false ∧
    update_file stEmpty "a.txt" [docA] true true true = (UpdateOutcome.notFound, stEmpty) :=
  ⟨by decide, update_missing_filename_not_found stEmpty "a.txt" [docA] true true true (by decide)⟩

/-- Claim C7, counterexample: a successful update of "a.txt" whose loaded
document carries no `modified_at` metadata key leaves `modified_at` exactly
as before (`some 5`), not strictly later, even though `size` is updated to
the new value — the source sets `modified_at` to
`doc.metadata.get("modified_at", old value)` rather than to a fresh
timestamp. -/
theorem update_modified_at_unchanged_cex :
    (update_file stOne "a.txt" [docB] true true true).1 = UpdateOutcome.updatedOk ∧
    (update_file stOne "a.txt" [docB] true true true).2.db.map (fun r => r.modified_at)
      = [some 5] ∧
    stOne.db.map (fun r => r.modified_at) = [some 5] ∧
    (update_file stOne "a.txt" [docB] true true true).2.db.map (fun r => r.size) = [20] := by
  refine ⟨?_, ?_, ?_, ?_⟩ <;> rfl

/-- Claim C7 (amended): on every successful update of an existing document,
the existing row is rewritten by the update branch of
`create_document_session`: `size`, `modified_at` and `accessed_at` are
overwritten with the values present in the submitted document's metadata and
left unchanged when the metadata omits them, while `filename`, `doc_id`,
`mime_type`, `file_path` and `creation_date` are unchanged for every row;
`modified_at` is not guaranteed to advance. -/
theorem update_row_fields (st : SyncState) (f d : String) (doc : Document)
    (h1 : get_doc_id_from_filename st.db f = some d) (h2 : d ≠ "") :
    (update_file st f [doc] true true true).1 = UpdateOutcome.updatedOk ∧
    (update_file st f [doc] true true true).2.db
      = updateDocFirst { doc with doc_id := d } st.db ∧
    (updateDocFirst { doc with doc_id := d } st.db).map
        (fun r => (r.filename, r.doc_id, r.mime_type, r.file_path, r.creation_date))
      = st.db.map (fun r => (r.filename, r.doc_id, r.mime_type, r.file_path, r.creation_date)) := by
  have hchk : check_document_exists_with_filename st.db f = true :=
    check_filename_of_get_doc_id h1
  have hg : truthyDocId (get_doc_id_from_filename st.db f) = some d := by
    rw [h1]; exact truthyDocId_some h2
  have hex : check_document_exists_with_doc_id st.db d = true := get_doc_id_some_exists h1
  refine ⟨?_, ?_, updateDocFirst_preserves_fixed _ _⟩ <;>
    simp [update_file, hchk, hg, update_file_context_in_agent,
      create_document_session, create_document_session_go, hex]

/-- Claim C7 witness: the amended theorem at the one-document state with the
resubmitted document `docB`. -/
theorem update_row_fields_witness :
    (get_doc_id_from_filename stOne.db "a.txt" = some "id1" ∧ "id1" ≠ "") ∧
    ((update_file stOne "a.txt" [docB] true true true).1 = UpdateOutcome.updatedOk ∧
     (update_file stOne "a.txt" [docB] true true true).2.db
       = updateDocFirst { docB with doc_id := "id1" } stOne.db ∧
     (updateDocFirst { docB with doc_id := "id1" } stOne.db).map
         (fun r => (r.filename, r.doc_id, r.mime_type, r.file_path, r.creation_date))
       = stOne.db.map
           (fun r => (r.filename, r.doc_id, r.mime_type, r.file_path, r.creation_date))) :=
  ⟨⟨by decide, by decide⟩, update_row_fields stOne "a.txt" "id1" docB (by decide) (by decide)⟩

/-- Claim C8: for every pair of completion outcomes, the overall quality
score equals `0.6 × relevance + 0.4 × completeness` of the two sub-scores,
and the recommendation is the band fixed by the thresholds: at least 0.8
high, else at least 0.6 moderate, else at least 0.4 low, else poor. -/
theorem evaluate_quality_formula_bands (relR compR : Except String (Option JsonDict)) :
    (evaluate_quality relR compR).overall_quality_score
      = 6 / 10 * (evaluate_relevance relR).score
        + 4 / 10 * (evaluate_completeness compR).score ∧
    ((8 : ℚ) / 10 ≤ (evaluate_quality relR compR).overall_quality_score →
      (evaluate_quality relR compR).recommendation
        = "High quality context - suitable for use") ∧
    ((evaluate_quality relR compR).overall_quality_score < 8 / 10 →
      (6 : ℚ) / 10 ≤ (evaluate_quality relR compR).overall_quality_score →
      (evaluate_quality relR compR).recommendation
        = "Moderate quality - may need additional context") ∧
    ((evaluate_quality relR compR).overall_quality_score < 6 / 10 →
      (4 : ℚ) / 10 ≤ (evaluate_quality relR compR).overall_quality_score →
      (evaluate_quality relR compR).recommendation
        = "Low quality - consider refining query or adding more sources") ∧
    ((evaluate_quality relR compR).overall_quality_score < 4 / 10 →
      (evaluate_quality relR compR).recommendation
        = "Poor quality - context may not be relevant or complete") := by
  simp only [evaluate_quality]
  refine ⟨by ring, ?_, ?_, ?_, ?_⟩
  · intro h
    simp only [get_recommendation, if_pos h]
  · intro h1 h2
    rw [get_recommendation, if_neg (by exact not_le.mpr h1), if_pos h2]
  · intro h1 h2
    rw [get_recommendation, if_neg (by exact not_le.mpr (by linarith)),
      if_neg (by exact not_le.mpr h1), if_pos h2]
  · intro h
    rw [get_recommendation, if_neg (by exact not_le.mpr (by linarith)),
      if_neg (by exact not_le.mpr (by linarith)), if_neg (by exact not_le.mpr h)]

/-- Claim C8 witness: two replies both scoring 1.0 give overall score 1 and
the high band. -/
theorem evaluate_quality_formula_bands_witness :
    (8 : ℚ) / 10 ≤ (evaluate_quality replyScoreOne replyScoreOne).overall_quality_score ∧
    (evaluate_quality replyScoreOne replyScoreOne).recommendation
      = "High quality context - suitable for use" := by
  have hrel : (evaluate_relevance replyScoreOne).score = 1 := rfl
  have hcomp : (evaluate_completeness replyScoreOne).score = 1 := rfl
  have hform := (evaluate_quality_formula_bands replyScoreOne replyScoreOne).1
  have hle : (8 : ℚ) / 10
      ≤ (evaluate_quality replyScoreOne replyScoreOne).overall_quality_score := by
    rw [hform, hrel, hcomp]; norm_num
  exact ⟨hle, (evaluate_quality_formula_bands replyScoreOne replyScoreOne).2.1 hle⟩

/-- Claim C9, counterexample: a reply from which no JSON object can be
extracted yields sub-score 0.0 but an empty explanation — the parse failure
is not noted in the result, contrary to the claim (`_extract_json` silently
returns `{}` and `result.get("explanation", "")` defaults to the empty
string). -/
theorem evaluate_parse_failure_cex :
    evaluate_relevance (Except.ok none)
      = { score := 0, explanation := JVal.str "", extra := JVal.strs [] } ∧
    evaluate_completeness (Except.ok none)
      = { score := 0, explanation := JVal.str "", extra := JVal.strs [] } := by
  constructor <;> rfl

/-- Claim C9 (amended): for every completion-service reply that cannot be
parsed as the expected JSON structure, the sub-score (relevance or
completeness) is treated as 0.0 with an empty explanation (no parse-failure
note); an exception in the completion call instead gives score 0.0 and an
"Evaluation error: ..." explanation; in both cases the evaluation returns a
result rather than raising (the embedding is a total function). -/
theorem evaluate_parse_failure_zero (e : String) :
    (evaluate_relevance (Except.ok none)).score = 0 ∧
    (evaluate_relevance (Except.ok none)).explanation = JVal.str "" ∧
    (evaluate_completeness (Except.ok none)).score = 0 ∧
    (evaluate_completeness (Except.ok none)).explanation = JVal.str "" ∧
    evaluate_relevance (Except.error e)
      = { score := 0, explanation := JVal.str ("Evaluation error: " ++ e),
          extra := JVal.strs [] } ∧
    evaluate_completeness (Except.error e)
      = { score := 0, explanation := JVal.str ("Evaluation error: " ++ e),
          extra := JVal.strs [] } :=
  ⟨rfl, rfl, rfl, rfl, rfl, rfl⟩

/-- Claim C10: the calculator tool's execute is a total function into
strings (so it never raises): an expression containing any character outside
"0123456789+-*/.() " is rejected with the invalid-characters message before
any evaluation, and otherwise the result is either a "Result: ..." value or
a caught evaluation error rendered as "Error calculating '...': ...". -/
theorem calc_execute_guard_and_total (s : String) :
    (calcCharsOk s = false → calc_execute s = "Error: Invalid characters in expression") ∧
    (calc_execute s = "Error: Invalid characters in expression" ∨
      (∃ out, calc_execute s = "Result: " ++ out) ∨
      (∃ msg, calc_execute s = "Error calculating '" ++ s ++ "': " ++ msg)) := by
  constructor
  · intro h
    simp [calc_execute, h]
  · by_cases hc : calcCharsOk s = true
    · rcases hev : pyEvalArith s with e | v
      · right; right
        exact ⟨e, by simp [calc_execute, hc, hev]⟩
      · right; left
        exact ⟨toString v, by simp [calc_execute, hc, hev]⟩
    · left
      simp [calc_execute, Bool.eq_false_iff.mpr hc]

/-- Claim C10 witness: "2+x" contains a character outside the allowed set
and is rejected without evaluation. -/
theorem calc_execute_guard_and_total_witness :
    calcCharsOk "2+x" = false ∧
    calc_execute "2+x" = "Error: Invalid characters in expression" :=
  ⟨by decide, (calc_execute_guard_and_total "2+x").1 (by decide)⟩

end AgenticAssistant
